import Mathlib

/-!
Verification of the procedural-geometry scripts in this repository.

Each Blender script computes vertex positions and keyframe values from
closed-form mathematics before pushing them to the host.  This file embeds
that mathematics in Lean: 3D vectors over `ℝ`, the Sierpinski tetrahedron
recursion (`SierpinskiPyramid.py`), the Klein-bottle vertex formula
(`KleinBottle.py`), the Mandelbulb distance estimator (`Mandelbulb.py`),
the orbit keyframe generator (`solarsystemorbitsim.py`), and abstract
effect traces for the scripts' top-level host interactions.
-/

/-- A 3D vector with real components, mirroring `mathutils.Vector`. -/
structure Vec3 where
  x : ℝ
  y : ℝ
  z : ℝ

namespace Vec3

/-- Componentwise addition, as `Vector + Vector` in `mathutils`. -/
noncomputable def add (a b : Vec3) : Vec3 := ⟨a.x + b.x, a.y + b.y, a.z + b.z⟩

noncomputable instance : Add Vec3 := ⟨add⟩

/-- Componentwise subtraction. -/
noncomputable def sub (a b : Vec3) : Vec3 := ⟨a.x - b.x, a.y - b.y, a.z - b.z⟩

noncomputable instance : Sub Vec3 := ⟨sub⟩

/-- Scalar multiplication, as `float * Vector` in `mathutils`. -/
noncomputable def smul (c : ℝ) (a : Vec3) : Vec3 := ⟨c * a.x, c * a.y, c * a.z⟩

/-- Euclidean norm, mirroring `Vector.length`. -/
noncomputable def length (a : Vec3) : ℝ := Real.sqrt (a.x ^ 2 + a.y ^ 2 + a.z ^ 2)

/-- Euclidean distance between two points. -/
noncomputable def dist (a b : Vec3) : ℝ := (a.sub b).length

end Vec3

/-! ## SierpinskiPyramid.py -/

/-- `tetrahedron_vertices(center, scale)` from `SierpinskiPyramid.py`:
apex at height `scale * sqrt(2/3)` above `center`, three base vertices on
the circle of radius `scale * sqrt(3)/3` around `center`, 120 degrees
apart. -/
noncomputable def tetrahedron_vertices (center : Vec3) (scale : ℝ) : List Vec3 :=
  let h := scale * Real.sqrt (2 / 3)
  let r := scale * Real.sqrt 3 / 3
  let v0 := center + ⟨0, 0, h⟩
  let v1 := center + ⟨r * Real.cos 0, r * Real.sin 0, 0⟩
  let v2 := center + ⟨r * Real.cos (2 * Real.pi / 3), r * Real.sin (2 * Real.pi / 3), 0⟩
  let v3 := center + ⟨r * Real.cos (4 * Real.pi / 3), r * Real.sin (4 * Real.pi / 3), 0⟩
  [v0, v1, v2, v3]

/-- `sierpinski_recursive(center, scale, depth, max_depth)` from
`SierpinskiPyramid.py`.  A created leaf tetrahedron is recorded as its
`(center, scale)` pair.  The `hollow` branch guarded by
`hollow and depth < max_depth - 1` has the same body as the plain
recursive branch, exactly as in the source. -/
noncomputable def sierpinski_recursive (hollow : Bool) (center : Vec3) (scale : ℝ)
    (depth maxDepth : ℕ) : List (Vec3 × ℝ) :=
  if depth ≥ maxDepth then
    [(center, scale)]
  else if hollow = true ∧ depth < maxDepth - 1 then
    (tetrahedron_vertices center scale).flatMap
      (fun vert => sierpinski_recursive hollow vert (scale / 2) (depth + 1) maxDepth)
  else
    (tetrahedron_vertices center scale).flatMap
      (fun vert => sierpinski_recursive hollow vert (scale / 2) (depth + 1) maxDepth)
termination_by maxDepth - depth
decreasing_by all_goals omega

/-- `create_sierpinski_pyramid(base_center, size, iterations, hollow)`:
the list of leaf tetrahedra produced by the inner recursion started at
depth 0. -/
noncomputable def create_sierpinski_pyramid (base_center : Vec3) (size : ℝ)
    (iterations : ℕ) (hollow : Bool) : List (Vec3 × ℝ) :=
  sierpinski_recursive hollow base_center size 0 iterations

/-- The subdivision described by the claim: a tetrahedron of center `c`
and scale `k` is replaced by four tetrahedra of scale `k / 2` centered at
the four vertices of `tetrahedron_vertices c k`. -/
noncomputable def sierpinskiSpec (c : Vec3) (k : ℝ) : ℕ → List (Vec3 × ℝ)
  | 0 => [(c, k)]
  | n + 1 =>
    (tetrahedron_vertices c k).flatMap (fun v => sierpinskiSpec v (k / 2) n)

/-! ## KleinBottle.py -/

/-- The surface point computed in the loop body of
`create_klein_bottle_mesh` (before scaling and repositioning): the
piecewise parametrization with `r = 4 * (1 - cos u / 2)` and separate
formulas for `u < π` and `u ≥ π`. -/
noncomputable def kleinPoint (u v : ℝ) : Vec3 :=
  let r := 4 * (1 - Real.cos u / 2)
  if u < Real.pi then
    ⟨6 * Real.cos u * (1 + Real.sin u) + r * Real.cos (v + Real.pi),
     16 * Real.sin u,
     r * Real.sin (v + Real.pi)⟩
  else
    ⟨6 * Real.cos u * (1 + Real.sin u) + r * Real.cos u * Real.cos v,
     16 * Real.sin u,
     r * Real.sin u * Real.sin v⟩

/-- The vertex position `create_klein_bottle_mesh` stores for grid indices
`(i, j)`: `u = (i / u_steps) * 2π`, `v = (j / v_steps) * 2π`, then
`pos = (x * 0.08, z * 0.08, -y * 0.08 * 0.9)` with `pos.z += 1.2`. -/
noncomputable def kleinVertexPos (u_steps v_steps i j : ℕ) : Vec3 :=
  let u := ((i : ℝ) / u_steps) * 2 * Real.pi
  let v := ((j : ℝ) / v_steps) * 2 * Real.pi
  let p := kleinPoint u v
  let scale : ℝ := 0.08
  ⟨p.x * scale, p.z * scale, -p.y * scale * 0.9 + 1.2⟩

/-- The figure-eight (Klein bagel) immersion of the Klein bottle with tube
parameter `a`, the standard closed form the spec names
("the Klein-bottle figure-eight immersion"):
`x = (a + cos(u/2)·sin v − sin(u/2)·sin 2v)·cos u`,
`y = (a + cos(u/2)·sin v − sin(u/2)·sin 2v)·sin u`,
`z = sin(u/2)·sin v + cos(u/2)·sin 2v`. -/
noncomputable def figureEightImmersion (a u v : ℝ) : Vec3 :=
  ⟨(a + Real.cos (u / 2) * Real.sin v - Real.sin (u / 2) * Real.sin (2 * v)) * Real.cos u,
   (a + Real.cos (u / 2) * Real.sin v - Real.sin (u / 2) * Real.sin (2 * v)) * Real.sin u,
   Real.sin (u / 2) * Real.sin v + Real.cos (u / 2) * Real.sin (2 * v)⟩

/-- Component `k` of a vector, for axis-permutation statements. -/
noncomputable def Vec3.comp (k : Fin 3) (w : Vec3) : ℝ := ![w.x, w.y, w.z] k

/-- `P` permutes the coordinate axes up to sign: some bijection `σ` of the
axes and signs `s k ∈ {1, -1}` give `(P w)ₖ = s k * w_(σ k)`.  This is the
"axis permutation/flip" of the claim, uniform-scale-free. -/
def IsSignedAxisPerm (P : Vec3 → Vec3) : Prop :=
  ∃ σ : Fin 3 → Fin 3, Function.Bijective σ ∧
    ∃ s : Fin 3 → ℝ, (∀ k, s k = 1 ∨ s k = -1) ∧
      ∀ (w : Vec3) (k : Fin 3), Vec3.comp k (P w) = s k * Vec3.comp (σ k) w

/-- The axis permutation/flip the script actually applies:
`(x, y, z) ↦ (x, z, -y)` ("rotate 90 degrees to stand upright"). -/
noncomputable def uprightPerm (w : Vec3) : Vec3 := ⟨w.x, w.z, -w.y⟩

/-- A quad face handed to `bm.faces.new`, identified by the grid indices
of its four vertices `verts[i][j]`. -/
abbrev Quad := (ℕ × ℕ) × (ℕ × ℕ) × (ℕ × ℕ) × (ℕ × ℕ)

/-- The candidate quad built for loop indices `(i, j)`:
`verts[i][j]`, `verts[(i+1) % u_steps][j]`,
`verts[(i+1) % u_steps][(j+1) % v_steps]`, `verts[i][(j+1) % v_steps]`. -/
def kleinQuad (u_steps v_steps i j : ℕ) : Quad :=
  ((i, j), ((i + 1) % u_steps, j),
   ((i + 1) % u_steps, (j + 1) % v_steps), (i, (j + 1) % v_steps))

/-- One `bm.faces.new(...)` call: the host either appends the face and
returns the grown face list, or raises (degenerate or duplicate face);
`ok` is the host's deterministic success predicate. -/
def tryAddFace (ok : Quad → Bool) (faces : List Quad) (q : Quad) :
    Except Unit (List Quad) :=
  if ok q then .ok (faces ++ [q]) else .error ()

/-- The `try: bm.faces.new(...) except: pass` body: on failure the face
list under construction is kept unchanged. -/
def addFaceStep (ok : Quad → Bool) (faces : List Quad) (q : Quad) : List Quad :=
  match tryAddFace ok faces q with
  | .ok fs => fs
  | .error _ => faces

/-- All candidate quads the face loop visits, in loop order
(`for i in range(u_steps): for j in range(v_steps)`). -/
def kleinFaceLoopQuads (u_steps v_steps : ℕ) : List Quad :=
  (List.range u_steps).flatMap
    (fun i => (List.range v_steps).map (fun j => kleinQuad u_steps v_steps i j))

/-- The face list after the whole face-construction loop. -/
def buildKleinFaces (ok : Quad → Bool) (u_steps v_steps : ℕ) : List Quad :=
  (kleinFaceLoopQuads u_steps v_steps).foldl (addFaceStep ok) []

/-! ## Mandelbulb.py -/

/-- `math.atan2(y, x)`: the argument of the point `(x, y)`. -/
noncomputable def atan2 (y x : ℝ) : ℝ := Complex.arg ⟨x, y⟩

/-- Execution record of `mandelbulb_distance`: the returned value, the
radii `r = z.length` computed at each entered loop pass in order, the
denominators of the divisions actually performed, the arguments passed to
`math.acos`, and whether the `r < 0.0001` early `return 0` fired. -/
structure MandelTrace where
  result : ℝ
  radii : List ℝ
  denoms : List ℝ
  acosArgs : List ℝ
  earlyZero : Bool

/-- The code after the loop of `mandelbulb_distance`:
`0.5 * log(max(r, 0.0001)) * r / dr` when `r > 0.0001 and dr > 0`, else
`0`.  Also returns the denominators of the divisions performed. -/
noncomputable def mandelbulbFinish (r dr : ℝ) : ℝ × List ℝ :=
  if 0.0001 < r ∧ 0 < dr then (0.5 * Real.log (max r 0.0001) * r / dr, [dr])
  else (0, [])

/-- The `for i in range(iterations)` loop of `mandelbulb_distance`, by
recursion on the remaining passes.  State: current `z`, `dr`, and the `r`
left by the previous pass (initially `0.0`).  Each entered pass computes
`r = z.length`; `r > bailout` breaks to the post-loop code, `r < 0.0001`
returns `0`, otherwise the spherical-coordinate step runs with the acos
argument clamped to `[-1, 1]`. -/
noncomputable def mandelbulbLoop (pos : Vec3) (power bailout : ℝ) :
    ℕ → Vec3 → ℝ → ℝ → MandelTrace
  | 0, _z, dr, r =>
    let f := mandelbulbFinish r dr
    ⟨f.1, [], f.2, [], false⟩
  | n + 1, z, dr, _r =>
    let r := z.length
    if bailout < r then
      let f := mandelbulbFinish r dr
      ⟨f.1, [r], f.2, [], false⟩
    else if r < 0.0001 then
      ⟨0, [r], [], [], true⟩
    else
      let arg := max (-1) (min 1 (z.z / r))
      let theta := Real.arccos arg * power
      let phi := atan2 z.y z.x * power
      let zr := r ^ power
      let z' := Vec3.smul zr ⟨Real.sin theta * Real.cos phi,
                              Real.sin theta * Real.sin phi,
                              Real.cos theta⟩ + pos
      let dr' := r ^ (power - 1) * power * dr + 1
      let t := mandelbulbLoop pos power bailout n z' dr' r
      ⟨t.result, r :: t.radii, r :: t.denoms, arg :: t.acosArgs, t.earlyZero⟩

/-- The full execution record of `mandelbulb_distance(pos, power,
iterations, bailout)`: `z = pos.copy()`, `dr = 1.0`, `r = 0.0`. -/
noncomputable def mandelbulbTrace (pos : Vec3) (power : ℝ) (iterations : ℕ)
    (bailout : ℝ) : MandelTrace :=
  mandelbulbLoop pos power bailout iterations pos 1 0

/-- `mandelbulb_distance` from `Mandelbulb.py`: the returned distance
estimate. -/
noncomputable def mandelbulb_distance (pos : Vec3) (power : ℝ) (iterations : ℕ)
    (bailout : ℝ) : ℝ :=
  (mandelbulbTrace pos power iterations bailout).result

/-! ## animations/solarsystemorbitsim.py -/

/-- The keyframe `animate_orbit` writes at frame `f`:
`angle = (frame / frames) * orbit_speed * 2π`, location
`(cos(angle) * orbit_distance, sin(angle) * orbit_distance, 0)`, and
z-rotation `angle`. -/
noncomputable def orbitKeyframe (orbit_distance orbit_speed : ℝ) (frames f : ℕ) :
    Vec3 × ℝ :=
  let angle := ((f : ℝ) / (frames : ℝ)) * orbit_speed * 2 * Real.pi
  (⟨Real.cos angle * orbit_distance, Real.sin angle * orbit_distance, 0⟩, angle)

/-- The keyframe sequence of `animate_orbit(planet, orbit_distance,
orbit_speed, frames)`: one entry per `frame in range(1, frames + 1)`. -/
noncomputable def animate_orbit (orbit_distance orbit_speed : ℝ) (frames : ℕ) :
    List (ℕ × Vec3 × ℝ) :=
  (List.range frames).map
    (fun k => (k + 1, orbitKeyframe orbit_distance orbit_speed frames (k + 1)))

/-! ## Script top-level effect traces

Each script's top-to-bottom execution is abstracted as an ordered list of
host-API effects, at the granularity the scene-clearing claim speaks
about: removing existing scene objects (`bpy.ops.object.delete`),
clearing existing animation data (`animation_data_clear`), creating new
geometry (mesh primitives, `bpy.data.objects.new`), inserting a keyframe
(`keyframe_insert`), and all other host calls (selection and mode
changes, materials, modifiers, node graphs, lights, cameras, frame-range
and render settings).  Consecutive effects of the same kind are collapsed
into one entry; the relative order is that of the source.  `bounce.py`
and `jump.py` model the path in which a character is selected;
`proceduralwalk.py` branches on whether an armature exists, so both of
its paths are modelled. -/

/-- One host-API effect of a script run. -/
inductive HostAction where
  | deleteObjects
  | clearAnimationData
  | createGeometry
  | insertKeyframe
  | hostOther
  deriving DecidableEq

/-- `KleinBottle.py`: mode/selection calls, object deletion, material
removal, the Klein-bottle mesh, its material, then the ground plane and
lights/camera/render setup. -/
def kleinBottleTrace : List HostAction :=
  [.hostOther, .deleteObjects, .hostOther, .createGeometry, .hostOther,
   .createGeometry, .hostOther]

/-- `Mandelbulb.py`: mode/selection calls, mesh-object deletion, then per
fractal an icosphere plus modifiers/material, then lights/camera. -/
def mandelbulbTraceScript : List HostAction :=
  [.hostOther, .deleteObjects, .createGeometry, .hostOther, .createGeometry,
   .hostOther, .createGeometry, .hostOther]

/-- `SierpinskiPyramid.py`: mode/selection calls, mesh-object deletion,
material removal, the leaf tetrahedra, then materials/join/camera/lights. -/
def sierpinskiTrace : List HostAction :=
  [.hostOther, .deleteObjects, .hostOther, .createGeometry, .hostOther]

/-- `spacelight.py`: select-all plus deletion, then the generated scene
geometry and its materials/lights/camera. -/
def spacelightTrace : List HostAction :=
  [.hostOther, .deleteObjects, .createGeometry, .hostOther]

/-- `animations/solarsystemorbitsim.py` (`main()`): `clear_scene()`, the
frame range, the sun, then per planet the orbit path and planet spheres
and their orbit keyframes, then camera/lighting. -/
def solarSystemTrace : List HostAction :=
  [.deleteObjects, .hostOther, .createGeometry, .createGeometry,
   .insertKeyframe, .hostOther]

/-- `animations/bounce.py` with a character selected: fps/frame-range
setup, `animation_data_clear()`, `frame_set`, the bounce/rotation/tilt
keyframes, then interpolation settings.  No object is ever deleted. -/
def bounceTrace : List HostAction :=
  [.hostOther, .clearAnimationData, .hostOther, .insertKeyframe, .hostOther]

/-- `animations/jump.py` with a character selected: fps/frame-range
setup, `animation_data_clear()`, `frame_set`, the dance/jump keyframes,
then interpolation settings.  No object is ever deleted. -/
def jumpTrace : List HostAction :=
  [.hostOther, .clearAnimationData, .hostOther, .insertKeyframe, .hostOther]

/-- `animations/basicanimations.py` (`main()`): `clear_animation()`, the
frame range, then keyframes on the existing mesh objects.  No object is
ever deleted. -/
def basicAnimationsTrace : List HostAction :=
  [.clearAnimationData, .hostOther, .insertKeyframe]

/-- `animations/proceduralwalk.py`, armature path (`create_walk_cycle()`
when `get_armature()` finds an armature): frame range,
`animation_data_clear()`, pose-mode changes, the walk-cycle keyframes,
then cyclic modifiers.  No object is deleted on this path. -/
def proceduralWalkArmatureTrace : List HostAction :=
  [.hostOther, .clearAnimationData, .hostOther, .insertKeyframe, .hostOther]

/-- `animations/proceduralwalk.py`, demo path (`create_walk_cycle()`
falls back to `create_demo_walk()` when no armature exists): select-all
plus deletion of every scene object, the demo body and feet cubes, the
frame range, then the demo walk keyframes. -/
def proceduralWalkDemoTrace : List HostAction :=
  [.hostOther, .deleteObjects, .createGeometry, .hostOther, .insertKeyframe]

/-- All nine scripts of the repository with their effect traces, both
paths of `proceduralwalk.py` included. -/
def allScriptTraces : List (List HostAction) :=
  [kleinBottleTrace, mandelbulbTraceScript, sierpinskiTrace, spacelightTrace,
   solarSystemTrace, bounceTrace, jumpTrace, basicAnimationsTrace,
   proceduralWalkArmatureTrace, proceduralWalkDemoTrace]

/-- The claimed property of one script trace: scene objects are removed
before any new geometry is created or any keyframe is inserted. -/
def clearsSceneFirst : List HostAction → Bool
  | [] => true
  | .deleteObjects :: _ => true
  | .createGeometry :: _ => false
  | .insertKeyframe :: _ => false
  | _ :: rest => clearsSceneFirst rest

/-! ## Theorems -/

theorem Vec3.ext_iff {a b : Vec3} : a = b ↔ a.x = b.x ∧ a.y = b.y ∧ a.z = b.z := by
  cases a; cases b; simp

theorem Vec3.add_def (a b : Vec3) : a + b = ⟨a.x + b.x, a.y + b.y, a.z + b.z⟩ := rfl

theorem Vec3.sub_def (a b : Vec3) : a - b = ⟨a.x - b.x, a.y - b.y, a.z - b.z⟩ := rfl

/-- Closed form of the four tetrahedron vertices, with the trigonometric
values at `0`, `2π/3`, `4π/3` evaluated. -/
theorem tetrahedron_vertices_explicit (c : Vec3) (s : ℝ) :
    tetrahedron_vertices c s =
      [⟨c.x, c.y, c.z + s * Real.sqrt (2 / 3)⟩,
       ⟨c.x + s * Real.sqrt 3 / 3, c.y, c.z⟩,
       ⟨c.x - s * Real.sqrt 3 / 6, c.y + s / 2, c.z⟩,
       ⟨c.x - s * Real.sqrt 3 / 6, c.y - s / 2, c.z⟩] := by
  have e2 : 2 * Real.pi / 3 = Real.pi - Real.pi / 3 := by ring
  have e4 : 4 * Real.pi / 3 = Real.pi / 3 + Real.pi := by ring
  have h1 : Real.cos (2 * Real.pi / 3) = -(1 / 2) := by
    rw [e2, Real.cos_pi_sub, Real.cos_pi_div_three]
  have h2 : Real.sin (2 * Real.pi / 3) = Real.sqrt 3 / 2 := by
    rw [e2, Real.sin_pi_sub, Real.sin_pi_div_three]
  have h3 : Real.cos (4 * Real.pi / 3) = -(1 / 2) := by
    rw [e4, Real.cos_add_pi, Real.cos_pi_div_three]
  have h4 : Real.sin (4 * Real.pi / 3) = -(Real.sqrt 3 / 2) := by
    rw [e4, Real.sin_add_pi, Real.sin_pi_div_three]
  have h33 : Real.sqrt 3 * Real.sqrt 3 = 3 := Real.mul_self_sqrt (by norm_num)
  simp only [tetrahedron_vertices, Vec3.add_def, h1, h2, h3, h4,
    Real.cos_zero, Real.sin_zero, List.cons.injEq, and_true, Vec3.mk.injEq]
  refine ⟨⟨by ring, by ring⟩, ⟨by ring, by ring, by ring⟩,
    ⟨by ring, by linear_combination (s / 6) * h33, by ring⟩,
    by ring, by linear_combination (-(s / 6)) * h33, by ring⟩

/-- Both branches of `sierpinski_recursive` perform the identical
subdivision, so the result only depends on the remaining depth
`maxDepth - depth`. -/
theorem sierpinski_recursive_eq_spec :
    ∀ (n : ℕ) (hollow : Bool) (c : Vec3) (s : ℝ) (d m : ℕ), m - d = n →
      sierpinski_recursive hollow c s d m = sierpinskiSpec c s n := by
  intro n
  induction n with
  | zero =>
    intro hollow c s d m h
    rw [sierpinski_recursive]
    simp [show d ≥ m by omega, sierpinskiSpec]
  | succ k ih =>
    intro hollow c s d m h
    rw [sierpinski_recursive]
    have hd : ¬ d ≥ m := by omega
    rw [if_neg hd, ite_self]
    show (tetrahedron_vertices c s).flatMap _ = sierpinskiSpec c s (k + 1)
    show _ = (tetrahedron_vertices c s).flatMap _
    congr 1
    funext v
    exact ih hollow v (s / 2) (d + 1) m (by omega)

theorem sierpinskiSpec_length (n : ℕ) :
    ∀ (c : Vec3) (k : ℝ), (sierpinskiSpec c k n).length = 4 ^ n := by
  induction n with
  | zero => intro c k; simp [sierpinskiSpec]
  | succ m ih =>
    intro c k
    simp [sierpinskiSpec, tetrahedron_vertices_explicit, ih]
    ring

theorem sierpinskiSpec_scale (n : ℕ) :
    ∀ (c : Vec3) (k : ℝ), ∀ p ∈ sierpinskiSpec c k n, p.2 = k / 2 ^ n := by
  induction n with
  | zero => intro c k p hp; simp [sierpinskiSpec] at hp; simp [hp]
  | succ m ih =>
    intro c k p hp
    simp only [sierpinskiSpec, List.mem_flatMap] at hp
    obtain ⟨v, _, hp⟩ := hp
    rw [ih v (k / 2) p hp, pow_succ]
    ring

/-- C1: for every recursion depth `n` and base size `s > 0`,
`create_sierpinski_pyramid` produces exactly `4 ^ n` leaf tetrahedra,
every leaf is created with scale `s / 2 ^ n`, and the leaf list is exactly
the recursion that replaces a tetrahedron of center `c` and scale `k` by
four tetrahedra of scale `k / 2` centered at the vertices of
`tetrahedron_vertices c k`. -/
theorem sierpinski_pyramid_leaves (c : Vec3) (s : ℝ) (n : ℕ) (hollow : Bool)
    (hs : 0 < s) :
    (create_sierpinski_pyramid c s n hollow).length = 4 ^ n ∧
      (∀ p ∈ create_sierpinski_pyramid c s n hollow, p.2 = s / 2 ^ n) ∧
      create_sierpinski_pyramid c s n hollow = sierpinskiSpec c s n := by
  have he : create_sierpinski_pyramid c s n hollow = sierpinskiSpec c s n := by
    unfold create_sierpinski_pyramid
    exact sierpinski_recursive_eq_spec n hollow c s 0 n (by omega)
  refine ⟨by rw [he]; exact sierpinskiSpec_length n c s, fun p hp => ?_, he⟩
  rw [he] at hp
  exact sierpinskiSpec_scale n c s p hp

/-- Witness for C1 at `c = 0`, `s = 1`, `n = 2`, `hollow = false`. -/
theorem sierpinski_pyramid_leaves_witness :
    (0 : ℝ) < 1 ∧
      ((create_sierpinski_pyramid ⟨0, 0, 0⟩ 1 2 false).length = 4 ^ 2 ∧
        (∀ p ∈ create_sierpinski_pyramid ⟨0, 0, 0⟩ 1 2 false, p.2 = 1 / 2 ^ 2) ∧
        create_sierpinski_pyramid ⟨0, 0, 0⟩ 1 2 false = sierpinskiSpec ⟨0, 0, 0⟩ 1 2) :=
  ⟨by norm_num, sierpinski_pyramid_leaves ⟨0, 0, 0⟩ 1 2 false (by norm_num)⟩

/-- C9: `hollow = true` yields exactly the same leaf sequence as
`hollow = false`, since the hollow branch of `sierpinski_recursive` is
identical to the plain recursive branch. -/
theorem sierpinski_hollow_eq_solid (c : Vec3) (s : ℝ) (n : ℕ) :
    create_sierpinski_pyramid c s n true = create_sierpinski_pyramid c s n false := by
  unfold create_sierpinski_pyramid
  rw [sierpinski_recursive_eq_spec n true c s 0 n (by omega),
    sierpinski_recursive_eq_spec n false c s 0 n (by omega)]

/-- C10: for `s > 0` the four points of `tetrahedron_vertices c s` form a
regular tetrahedron of edge length `s`: all six pairwise distances equal
`s`, the three base vertices lie in the horizontal plane through `c`, and
the apex sits directly above `c` at height `s * sqrt(2/3)`. -/
theorem tetrahedron_vertices_regular (c : Vec3) (s : ℝ) (hs : 0 < s) :
    (tetrahedron_vertices c s).length = 4 ∧
    Vec3.dist ((tetrahedron_vertices c s).getD 0 ⟨0, 0, 0⟩)
        ((tetrahedron_vertices c s).getD 1 ⟨0, 0, 0⟩) = s ∧
    Vec3.dist ((tetrahedron_vertices c s).getD 0 ⟨0, 0, 0⟩)
        ((tetrahedron_vertices c s).getD 2 ⟨0, 0, 0⟩) = s ∧
    Vec3.dist ((tetrahedron_vertices c s).getD 0 ⟨0, 0, 0⟩)
        ((tetrahedron_vertices c s).getD 3 ⟨0, 0, 0⟩) = s ∧
    Vec3.dist ((tetrahedron_vertices c s).getD 1 ⟨0, 0, 0⟩)
        ((tetrahedron_vertices c s).getD 2 ⟨0, 0, 0⟩) = s ∧
    Vec3.dist ((tetrahedron_vertices c s).getD 1 ⟨0, 0, 0⟩)
        ((tetrahedron_vertices c s).getD 3 ⟨0, 0, 0⟩) = s ∧
    Vec3.dist ((tetrahedron_vertices c s).getD 2 ⟨0, 0, 0⟩)
        ((tetrahedron_vertices c s).getD 3 ⟨0, 0, 0⟩) = s ∧
    ((tetrahedron_vertices c s).getD 1 ⟨0, 0, 0⟩).z = c.z ∧
    ((tetrahedron_vertices c s).getD 2 ⟨0, 0, 0⟩).z = c.z ∧
    ((tetrahedron_vertices c s).getD 3 ⟨0, 0, 0⟩).z = c.z ∧
    ((tetrahedron_vertices c s).getD 0 ⟨0, 0, 0⟩).x = c.x ∧
    ((tetrahedron_vertices c s).getD 0 ⟨0, 0, 0⟩).y = c.y ∧
    ((tetrahedron_vertices c s).getD 0 ⟨0, 0, 0⟩).z = c.z + s * Real.sqrt (2 / 3) := by
  have h33 : Real.sqrt 3 * Real.sqrt 3 = 3 := Real.mul_self_sqrt (by norm_num)
  have h23 : Real.sqrt (2 / 3) * Real.sqrt (2 / 3) = 2 / 3 :=
    Real.mul_self_sqrt (by norm_num)
  have key : ∀ E : ℝ, E = s ^ 2 → Real.sqrt E = s := by
    intro E hE
    rw [hE, Real.sqrt_sq hs.le]
  rw [tetrahedron_vertices_explicit]
  simp only [List.getD, List.get?, Vec3.dist, Vec3.sub, Vec3.length, List.length_cons,
    List.length_nil, Option.getD_some]
  refine ⟨trivial,
    key _ (by linear_combination (s ^ 2 / 9) * h33 + s ^ 2 * h23),
    key _ (by linear_combination (s ^ 2 / 36) * h33 + s ^ 2 * h23),
    key _ (by linear_combination (s ^ 2 / 36) * h33 + s ^ 2 * h23),
    key _ (by linear_combination (s ^ 2 / 4) * h33),
    key _ (by linear_combination (s ^ 2 / 4) * h33),
    key _ (by ring), by ring_nf, by ring_nf, by ring_nf, by ring_nf, by ring_nf, by ring_nf⟩

/-- Witness for C10 at `c = 0`, `s = 1`. -/
theorem tetrahedron_vertices_regular_witness :
    (0 : ℝ) < 1 ∧
      ((tetrahedron_vertices ⟨0, 0, 0⟩ 1).length = 4 ∧
      Vec3.dist ((tetrahedron_vertices ⟨0, 0, 0⟩ 1).getD 0 ⟨0, 0, 0⟩)
          ((tetrahedron_vertices ⟨0, 0, 0⟩ 1).getD 1 ⟨0, 0, 0⟩) = 1 ∧
      Vec3.dist ((tetrahedron_vertices ⟨0, 0, 0⟩ 1).getD 0 ⟨0, 0, 0⟩)
          ((tetrahedron_vertices ⟨0, 0, 0⟩ 1).getD 2 ⟨0, 0, 0⟩) = 1 ∧
      Vec3.dist ((tetrahedron_vertices ⟨0, 0, 0⟩ 1).getD 0 ⟨0, 0, 0⟩)
          ((tetrahedron_vertices ⟨0, 0, 0⟩ 1).getD 3 ⟨0, 0, 0⟩) = 1 ∧
      Vec3.dist ((tetrahedron_vertices ⟨0, 0, 0⟩ 1).getD 1 ⟨0, 0, 0⟩)
          ((tetrahedron_vertices ⟨0, 0, 0⟩ 1).getD 2 ⟨0, 0, 0⟩) = 1 ∧
      Vec3.dist ((tetrahedron_vertices ⟨0, 0, 0⟩ 1).getD 1 ⟨0, 0, 0⟩)
          ((tetrahedron_vertices ⟨0, 0, 0⟩ 1).getD 3 ⟨0, 0, 0⟩) = 1 ∧
      Vec3.dist ((tetrahedron_vertices ⟨0, 0, 0⟩ 1).getD 2 ⟨0, 0, 0⟩)
          ((tetrahedron_vertices ⟨0, 0, 0⟩ 1).getD 3 ⟨0, 0, 0⟩) = 1 ∧
      ((tetrahedron_vertices ⟨0, 0, 0⟩ 1).getD 1 ⟨0, 0, 0⟩).z = (0 : ℝ) ∧
      ((tetrahedron_vertices ⟨0, 0, 0⟩ 1).getD 2 ⟨0, 0, 0⟩).z = (0 : ℝ) ∧
      ((tetrahedron_vertices ⟨0, 0, 0⟩ 1).getD 3 ⟨0, 0, 0⟩).z = (0 : ℝ) ∧
      ((tetrahedron_vertices ⟨0, 0, 0⟩ 1).getD 0 ⟨0, 0, 0⟩).x = (0 : ℝ) ∧
      ((tetrahedron_vertices ⟨0, 0, 0⟩ 1).getD 0 ⟨0, 0, 0⟩).y = (0 : ℝ) ∧
      ((tetrahedron_vertices ⟨0, 0, 0⟩ 1).getD 0 ⟨0, 0, 0⟩).z =
        (0 : ℝ) + 1 * Real.sqrt (2 / 3)) :=
  ⟨by norm_num, tetrahedron_vertices_regular ⟨0, 0, 0⟩ 1 (by norm_num)⟩

theorem kleinVertexPos_at_0_25 : kleinVertexPos 200 100 0 25 = ⟨0.48, -0.16, 1.2⟩ := by
  have hu : ((0 : ℕ) : ℝ) / ((200 : ℕ) : ℝ) * 2 * Real.pi = 0 := by norm_num
  have hv : ((25 : ℕ) : ℝ) / ((100 : ℕ) : ℝ) * 2 * Real.pi = Real.pi / 2 := by
    push_cast
    ring
  have hp : kleinPoint 0 (Real.pi / 2) = ⟨6, 0, -2⟩ := by
    simp only [kleinPoint]
    rw [if_pos Real.pi_pos]
    simp only [Real.cos_add_pi, Real.sin_add_pi, Real.cos_pi_div_two, Real.sin_pi_div_two,
      Real.cos_zero, Real.sin_zero]
    rw [Vec3.ext_iff]
    norm_num
  simp only [kleinVertexPos, hu, hv, hp]
  rw [Vec3.ext_iff]
  norm_num

theorem figureEight_at_0_pi_div_two (a : ℝ) :
    figureEightImmersion a 0 (Real.pi / 2) = ⟨a + 1, 0, 0⟩ := by
  have h2 : 2 * (Real.pi / 2) = Real.pi := by ring
  simp only [figureEightImmersion, h2, Real.sin_pi, Real.cos_pi_div_two, Real.sin_pi_div_two,
    zero_div, Real.cos_zero, Real.sin_zero]
  rw [Vec3.ext_iff]
  norm_num

/-- C2 counterexample: at grid indices `(i, j) = (0, 25)` of the script's
`(200, 100)` grid — `(u, v) = (0, π/2)` — the computed vertex is not any
signed axis permutation/flip of the uniformly `0.08`-scaled figure-eight
immersion point shifted vertically by `1.2`, for any tube parameter `a`:
the immersion point lies on a coordinate axis, while the computed vertex
minus the shift has two nonzero components. -/
theorem klein_vertex_not_figure_eight :
    ¬ ∃ (P : Vec3 → Vec3) (a : ℝ), IsSignedAxisPerm P ∧
        kleinVertexPos 200 100 0 25 =
          P (Vec3.smul 0.08 (figureEightImmersion a 0 (Real.pi / 2))) + ⟨0, 0, 1.2⟩ := by
  rintro ⟨P, a, ⟨σ, hbij, s, hsgn, hP⟩, heq⟩
  rw [kleinVertexPos_at_0_25, figureEight_at_0_pi_div_two] at heq
  set w : Vec3 := Vec3.smul 0.08 ⟨a + 1, 0, 0⟩ with hw
  have hw1 : Vec3.comp 1 w = 0 := by simp [hw, Vec3.smul, Vec3.comp]
  have hw2 : Vec3.comp 2 w = 0 := by simp [hw, Vec3.smul, Vec3.comp]
  have honly : ∀ k : Fin 3, Vec3.comp k w ≠ 0 → k = 0 := by
    intro k hk
    fin_cases k
    · rfl
    · exact absurd hw1 hk
    · exact absurd hw2 hk
  rw [Vec3.ext_iff] at heq
  obtain ⟨hx, hy, -⟩ := heq
  rw [Vec3.add_def] at hx hy
  have h0 : Vec3.comp 0 (P w) = 0.48 := by
    simp only [Vec3.comp] at hx ⊢
    simpa using hx.symm
  have h1 : Vec3.comp 1 (P w) = -0.16 := by
    simp only [Vec3.comp] at hy ⊢
    simpa using hy.symm
  rw [hP w 0] at h0
  rw [hP w 1] at h1
  have hne0 : Vec3.comp (σ 0) w ≠ 0 := by
    intro h
    rw [h, mul_zero] at h0
    norm_num at h0
  have hne1 : Vec3.comp (σ 1) w ≠ 0 := by
    intro h
    rw [h, mul_zero] at h1
    norm_num at h1
  exact absurd (hbij.injective ((honly _ hne0).trans (honly _ hne1).symm)) (by decide)

/-- C2 amended: every vertex computed by `create_klein_bottle_mesh` equals
the script's piecewise classical Klein-bottle parametrization `kleinPoint`
at `(u, v) = (2πi/u_steps, 2πj/v_steps)`, composed with the per-axis
scaling `(0.08, 0.08·0.9, 0.08)` (not uniform: the original `y` axis also
carries the `0.9` factor), the signed axis permutation/flip
`(x, y, z) ↦ (x, z, -y)`, and the vertical shift `+1.2`. -/
theorem klein_vertex_piecewise_decomposition (u_steps v_steps i j : ℕ) :
    IsSignedAxisPerm uprightPerm ∧
      kleinVertexPos u_steps v_steps i j =
        uprightPerm
          ⟨0.08 * (kleinPoint (((i : ℝ) / u_steps) * 2 * Real.pi)
              (((j : ℝ) / v_steps) * 2 * Real.pi)).x,
           0.08 * 0.9 * (kleinPoint (((i : ℝ) / u_steps) * 2 * Real.pi)
              (((j : ℝ) / v_steps) * 2 * Real.pi)).y,
           0.08 * (kleinPoint (((i : ℝ) / u_steps) * 2 * Real.pi)
              (((j : ℝ) / v_steps) * 2 * Real.pi)).z⟩ + ⟨0, 0, 1.2⟩ := by
  constructor
  · refine ⟨![0, 2, 1], by decide, ![1, 1, -1], ?_, ?_⟩
    · intro k
      fin_cases k
      · left; rfl
      · left; rfl
      · right; rfl
    · intro w k
      fin_cases k
      · simp [uprightPerm, Vec3.comp]
      · simp [uprightPerm, Vec3.comp]
      · simp [uprightPerm, Vec3.comp]
  · simp only [kleinVertexPos, uprightPerm, Vec3.add_def]
    rw [Vec3.ext_iff]
    refine ⟨by ring, by ring, by ring⟩

/-- C5: the face-construction loop visits all `u_steps * v_steps`
candidate quads; a failing `bm.faces.new` call leaves the face list under
construction unchanged (`except: pass`); and the final face list is
exactly the successfully created faces, in visit order. -/
theorem klein_face_loop_error_handling (ok : Quad → Bool) (u_steps v_steps : ℕ) :
    (kleinFaceLoopQuads u_steps v_steps).length = u_steps * v_steps ∧
    (∀ (faces : List Quad) (q : Quad), ok q = false → addFaceStep ok faces q = faces) ∧
    buildKleinFaces ok u_steps v_steps = (kleinFaceLoopQuads u_steps v_steps).filter ok := by
  have hfold : ∀ (qs acc : List Quad), qs.foldl (addFaceStep ok) acc = acc ++ qs.filter ok := by
    intro qs
    induction qs with
    | nil => intro acc; simp
    | cons q qs ih =>
      intro acc
      by_cases h : ok q
      · simp [List.foldl_cons, addFaceStep, tryAddFace, h, ih, List.filter_cons,
          List.append_assoc]
      · simp [List.foldl_cons, addFaceStep, tryAddFace, h, ih, List.filter_cons]
  have hlen : ∀ L : List ℕ,
      (L.flatMap (fun i => (List.range v_steps).map
        (fun j => kleinQuad u_steps v_steps i j))).length = L.length * v_steps := by
    intro L
    induction L with
    | nil => simp
    | cons i L ih => simp [ih]; ring
  refine ⟨hlen (List.range u_steps) |>.trans (by simp), ?_, hfold _ []⟩
  intro faces q hq
  simp [addFaceStep, tryAddFace, hq]

/-- Loop invariant for the Mandelbulb iteration: at most `n` passes run,
every pass before the last had radius `≤ bailout`, every recorded division
denominator is nonzero, every recorded acos argument lies in `[-1, 1]`,
and the early-return branch yields `0`. -/
theorem mandelbulbLoop_invariant (pos : Vec3) (power bailout : ℝ) :
    ∀ (n : ℕ) (z : Vec3) (dr r₀ : ℝ),
      (mandelbulbLoop pos power bailout n z dr r₀).radii.length ≤ n ∧
      (∀ i, i + 1 < (mandelbulbLoop pos power bailout n z dr r₀).radii.length →
        (mandelbulbLoop pos power bailout n z dr r₀).radii.getD i 0 ≤ bailout) ∧
      (∀ d ∈ (mandelbulbLoop pos power bailout n z dr r₀).denoms, d ≠ 0) ∧
      (∀ a ∈ (mandelbulbLoop pos power bailout n z dr r₀).acosArgs, -1 ≤ a ∧ a ≤ 1) ∧
      ((mandelbulbLoop pos power bailout n z dr r₀).earlyZero = true →
        (mandelbulbLoop pos power bailout n z dr r₀).result = 0) := by
  have hfin : ∀ r dr : ℝ, ∀ d ∈ (mandelbulbFinish r dr).2, d ≠ 0 := by
    intro r dr d hd
    unfold mandelbulbFinish at hd
    split at hd
    · next h =>
      simp only [List.mem_singleton] at hd
      subst hd
      exact ne_of_gt h.2
    · simp at hd
  intro n
  induction n with
  | zero =>
    intro z dr r₀
    refine ⟨by simp [mandelbulbLoop], by simp [mandelbulbLoop], ?_, by simp [mandelbulbLoop],
      by simp [mandelbulbLoop]⟩
    intro d hd
    exact hfin r₀ dr d hd
  | succ n ih =>
    intro z dr r₀
    simp only [mandelbulbLoop]
    split
    · next h =>
      refine ⟨by simp, by simp, ?_, by simp, by simp⟩
      intro d hd
      simp only at hd
      exact hfin z.length dr d hd
    · split
      · next h1 h2 =>
        refine ⟨by simp, by simp, by simp, by simp, by simp⟩
      · next h1 h2 =>
        obtain ⟨ihlen, ihrad, ihden, ihacos, ihzero⟩ :=
          ih (Vec3.smul (z.length ^ power)
                ⟨Real.sin (Real.arccos (max (-1) (min 1 (z.z / z.length))) * power) *
                    Real.cos (atan2 z.y z.x * power),
                  Real.sin (Real.arccos (max (-1) (min 1 (z.z / z.length))) * power) *
                    Real.sin (atan2 z.y z.x * power),
                  Real.cos (Real.arccos (max (-1) (min 1 (z.z / z.length))) * power)⟩ + pos)
            (z.length ^ (power - 1) * power * dr + 1) z.length
        refine ⟨by simpa using ihlen, ?_, ?_, ?_, by simpa using ihzero⟩
        · intro i hi
          simp only [List.length_cons] at hi
          match i with
          | 0 => simpa using le_of_not_lt h1
          | k + 1 =>
            simp only [List.getD_cons_succ]
            exact ihrad k (by simpa using hi)
        · intro d hd
          simp only [List.mem_cons] at hd
          rcases hd with hd | hd
          · subst hd
            have : (0.0001 : ℝ) ≤ z.length := le_of_not_lt h2
            intro h0
            rw [h0] at this
            norm_num at this
          · exact ihden d hd
        · intro a ha
          simp only [List.mem_cons] at ha
          rcases ha with ha | ha
          · subst ha
            constructor
            · exact le_max_left _ _
            · exact max_le (by norm_num) (min_le_left _ _)
          · exact ihacos a ha

/-- C4: for every input position and every `iterations = k`,
`mandelbulb_distance` enters its loop at most `k` times, and every entered
pass except possibly the last had radius `≤ bailout` — i.e. the loop
stops at the first pass whose radius `r = z.length` exceeds `bailout`
(escape-time behaviour). -/
theorem mandelbulb_distance_escape_time (pos : Vec3) (power : ℝ) (iterations : ℕ)
    (bailout : ℝ) :
    (mandelbulbTrace pos power iterations bailout).radii.length ≤ iterations ∧
      ∀ i, i + 1 < (mandelbulbTrace pos power iterations bailout).radii.length →
        (mandelbulbTrace pos power iterations bailout).radii.getD i 0 ≤ bailout := by
  obtain ⟨h1, h2, -, -, -⟩ :=
    mandelbulbLoop_invariant pos power bailout iterations pos 1 0
  exact ⟨h1, h2⟩

/-- C8: `mandelbulb_distance` is total and guarded: every division it
performs has a nonzero denominator (the `z.z / r` divisions run only when
`r ≥ 0.0001`, the final `r / dr` only when `dr > 0`), every argument
passed to `acos` is clamped into `[-1, 1]`, the `r < 0.0001` guard branch
returns `0`, and the failed post-loop guard returns `0`. -/
theorem mandelbulb_distance_total_safe (pos : Vec3) (power : ℝ) (iterations : ℕ)
    (bailout : ℝ) :
    (∀ d ∈ (mandelbulbTrace pos power iterations bailout).denoms, d ≠ 0) ∧
      (∀ a ∈ (mandelbulbTrace pos power iterations bailout).acosArgs, -1 ≤ a ∧ a ≤ 1) ∧
      ((mandelbulbTrace pos power iterations bailout).earlyZero = true →
        mandelbulb_distance pos power iterations bailout = 0) ∧
      ∀ r dr : ℝ, ¬(0.0001 < r ∧ 0 < dr) → (mandelbulbFinish r dr).1 = 0 := by
  obtain ⟨-, -, h3, h4, h5⟩ :=
    mandelbulbLoop_invariant pos power bailout iterations pos 1 0
  refine ⟨h3, h4, h5, ?_⟩
  intro r dr h
  simp [mandelbulbFinish, h]

/-- C7: the pure mathematical functions are deterministic — equal inputs
give equal results for `mandelbulb_distance` and for
`tetrahedron_vertices` (both are pure functions of their arguments). -/
theorem math_functions_deterministic (p₁ p₂ : Vec3) (pw₁ pw₂ : ℝ) (it₁ it₂ : ℕ)
    (b₁ b₂ : ℝ) (c₁ c₂ : Vec3) (s₁ s₂ : ℝ)
    (hp : p₁ = p₂) (hpw : pw₁ = pw₂) (hit : it₁ = it₂) (hb : b₁ = b₂)
    (hc : c₁ = c₂) (hs : s₁ = s₂) :
    mandelbulb_distance p₁ pw₁ it₁ b₁ = mandelbulb_distance p₂ pw₂ it₂ b₂ ∧
      tetrahedron_vertices c₁ s₁ = tetrahedron_vertices c₂ s₂ := by
  subst hp hpw hit hb hc hs
  exact ⟨rfl, rfl⟩

/-- Witness for C7 at concrete inputs. -/
theorem math_functions_deterministic_witness :
    mandelbulb_distance ⟨1, 0, 0⟩ 8 2 2 = mandelbulb_distance ⟨1, 0, 0⟩ 8 2 2 ∧
      tetrahedron_vertices ⟨0, 0, 0⟩ 1 = tetrahedron_vertices ⟨0, 0, 0⟩ 1 :=
  math_functions_deterministic ⟨1, 0, 0⟩ ⟨1, 0, 0⟩ 8 8 2 2 2 2 ⟨0, 0, 0⟩ ⟨0, 0, 0⟩ 1 1
    rfl rfl rfl rfl rfl rfl

/-- C6: for every planet configuration `(orbit_distance d, orbit_speed s)`
and every frame `f ∈ 1..frames`, `animate_orbit` keyframes a location with
`z = 0` and `x² + y² = d²` (the circle of radius `d` in the `z = 0`
plane) and a z-rotation of `(f / frames) * s * 2π`; at `f = frames` the
rotation is exactly `s * 2π`, i.e. `s` full revolutions. -/
theorem animate_orbit_circle (d s : ℝ) (frames f : ℕ) (h1 : 1 ≤ f) (h2 : f ≤ frames) :
    (f, orbitKeyframe d s frames f) ∈ animate_orbit d s frames ∧
      (orbitKeyframe d s frames f).1.z = 0 ∧
      (orbitKeyframe d s frames f).1.x ^ 2 + (orbitKeyframe d s frames f).1.y ^ 2 = d ^ 2 ∧
      (orbitKeyframe d s frames f).2 = ((f : ℝ) / (frames : ℝ)) * s * 2 * Real.pi ∧
      (f = frames → (orbitKeyframe d s frames f).2 = s * (2 * Real.pi)) := by
  refine ⟨?_, rfl, ?_, rfl, ?_⟩
  · simp only [animate_orbit, List.mem_map, List.mem_range]
    refine ⟨f - 1, by omega, ?_⟩
    have hf : f - 1 + 1 = f := by omega
    rw [hf]
  · simp only [orbitKeyframe]
    linear_combination
      d ^ 2 * Real.sin_sq_add_cos_sq (((f : ℝ) / (frames : ℝ)) * s * 2 * Real.pi)
  · intro hf
    subst hf
    simp only [orbitKeyframe]
    have hne : ((f : ℝ)) ≠ 0 := Nat.cast_ne_zero.mpr (by omega)
    field_simp
    ring

/-- Witness for C6 at `d = 2`, `s = 3`, `frames = 5`, `f = 5`. -/
theorem animate_orbit_circle_witness :
    1 ≤ 5 ∧ 5 ≤ 5 ∧
      ((5, orbitKeyframe 2 3 5 5) ∈ animate_orbit 2 3 5 ∧
        (orbitKeyframe 2 3 5 5).1.z = 0 ∧
        (orbitKeyframe 2 3 5 5).1.x ^ 2 + (orbitKeyframe 2 3 5 5).1.y ^ 2 = 2 ^ 2 ∧
        (orbitKeyframe 2 3 5 5).2 = (((5 : ℕ) : ℝ) / ((5 : ℕ) : ℝ)) * 3 * 2 * Real.pi ∧
        (5 = 5 → (orbitKeyframe 2 3 5 5).2 = 3 * (2 * Real.pi))) :=
  ⟨by norm_num, by norm_num, animate_orbit_circle 2 3 5 5 (by norm_num) (by norm_num)⟩

/-- C3 counterexample: `animations/bounce.py` inserts keyframes while its
top-to-bottom run never removes any pre-existing scene object (its trace
holds no `deleteObjects` effect at all), so "every script clears the
scene before creating geometry or keyframes" fails on this script. -/
theorem bounce_never_clears_scene :
    clearsSceneFirst bounceTrace = false ∧
      bounceTrace.contains .insertKeyframe = true ∧
      bounceTrace.contains .deleteObjects = false := by
  decide

/-- C3 amended: the five scene-building scripts (`KleinBottle.py`,
`Mandelbulb.py`, `SierpinskiPyramid.py`, `spacelight.py`,
`solarsystemorbitsim.py`) do remove the pre-existing objects before any
geometry or keyframe is created, and so does `proceduralwalk.py` on its
no-armature demo path (`create_demo_walk` deletes every object before
creating the demo cubes); but `bounce.py`, `jump.py`,
`basicanimations.py`, and `proceduralwalk.py` on its armature path never
remove scene objects — those runs only clear existing animation data
before inserting keyframes into the pre-existing scene. -/
theorem scene_clearing_by_script_kind :
    (clearsSceneFirst kleinBottleTrace = true ∧
      clearsSceneFirst mandelbulbTraceScript = true ∧
      clearsSceneFirst sierpinskiTrace = true ∧
      clearsSceneFirst spacelightTrace = true ∧
      clearsSceneFirst solarSystemTrace = true ∧
      clearsSceneFirst proceduralWalkDemoTrace = true) ∧
      ∀ t ∈ [bounceTrace, jumpTrace, basicAnimationsTrace, proceduralWalkArmatureTrace],
        t.contains .deleteObjects = false ∧ t.contains .insertKeyframe = true ∧
          t.contains .clearAnimationData = true := by
  decide
